import Mathlib

/-!
Verification of the time-discretization and model-binding configuration layer of
the ACADO code generator, file `src/code_generation/integrators/integrator_export.cpp`
(class `IntegratorExport`).

C doubles are modelled as exact rationals (`ℚ`); `EPS` models the machine
epsilon constant used by the tolerance `10.0*EPS` in the source.  The external
`Grid` class (ACADO's time grid ADT) is not part of the translated file, so its
operations are modelled from the spec's description of the TimeGrid ADT.
The `IntegratorExport` object is modelled as a record of the members this file
reads and writes; the inherited `ExportAlgorithm` part, the symbolic `ODE`
function object and the `integrate` export-function handle are opaque and
represented by their observable content only (a tag, the function dimension,
a handle value).
-/

namespace Acado

/-- Machine epsilon of IEEE double precision (`DBL_EPSILON = 2^-52`); stands for
the constant `EPS` used by the tolerance `10.0*EPS` in the source. -/
def EPS : ℚ := 1 / 2 ^ 52

/-- Consecutive differences of a list of time points: the interval durations of
a grid. -/
def diffs : List ℚ → List ℚ
  | a :: b :: rest => (b - a) :: diffs (b :: rest)
  | _ => []

/-- Modelled from the spec: the external TimeGrid ADT, an ordered sequence of
time points `t0 < t1 < … < tn`. -/
structure Grid where
  times : List ℚ
deriving DecidableEq, Repr

/-- Modelled from the spec: TimeGrid interval count (`getNumIntervals`),
one less than the number of time points. -/
def Grid.getNumIntervals (g : Grid) : ℕ := g.times.length - 1

/-- Modelled from the spec: TimeGrid first time point (`getFirstTime`). -/
def Grid.getFirstTime (g : Grid) : ℚ := g.times.headD 0

/-- Modelled from the spec: TimeGrid last time point (`getLastTime`). -/
def Grid.getLastTime (g : Grid) : ℚ := g.times.getLastD 0

/-- Modelled from the spec: TimeGrid per-index boundary time (`getTime(i)`). -/
def Grid.getTime (g : Grid) (i : ℕ) : ℚ := g.times.getD i 0

/-- Modelled from the spec: TimeGrid equidistance query (`isEquidistant`):
all intervals of the grid have identical duration. -/
def Grid.isEquidistant (g : Grid) : Bool :=
  match diffs g.times with
  | [] => true
  | d :: rest => rest.all (fun x => x == d)

/-- Helper for the TimeGrid bounds-and-count constructor: `n` points starting
at `start`, spaced by `step`. -/
def uniformAux (start step : ℚ) : ℕ → List ℚ
  | 0 => []
  | n + 1 => start :: uniformAux (start + step) step n

/-- Modelled from the spec: the TimeGrid construct-from-bounds-and-count
constructor `Grid(firstTime, lastTime, nPoints)`: `nPoints` equally spaced
points from `firstTime` to `lastTime`. -/
def Grid.uniform (firstTime lastTime : ℚ) (nPoints : ℕ) : Grid :=
  ⟨uniformAux firstTime ((lastTime - firstTime) / ((nPoints : ℚ) - 1)) nPoints⟩

/-- Return statuses observable from the translated member functions:
`SUCCESSFUL_RETURN` and the `RET_INVALID_OPTION` error raised by `setModel`. -/
inductive ReturnValue
  | SUCCESSFUL_RETURN
  | RET_INVALID_OPTION
deriving DecidableEq, Repr

/-- State of an `IntegratorExport` object: the members read or written by
`integrator_export.cpp`.  `base` stands for the opaque inherited
`ExportAlgorithm` part, `integrate` for the opaque `ExportFunction` handle and
`ODE_dim` for `ODE.getFunctionDim()` of the opaque symbolic ODE member. -/
structure IntegratorExport where
  base : ℕ
  EXPORT_RHS : Bool
  EQUIDISTANT : Bool
  CRS_FORMAT : Bool
  grid : Grid
  numSteps : List ℤ
  integrate : ℕ
  ODE_dim : ℕ
  name_ODE : String
  name_diffs_ODE : String
deriving DecidableEq, Repr

/-- Default constructor `IntegratorExport(userInteraction, commonHeaderName)`:
sets `EXPORT_RHS = BT_TRUE`, `EQUIDISTANT = BT_TRUE`, `CRS_FORMAT = BT_FALSE`;
all other members are default-initialized (empty grid, empty step vector,
zero-dimensional ODE, empty names).  `b` stands for the opaque base part built
from the constructor arguments. -/
def IntegratorExport.mkDefault (b : ℕ) : IntegratorExport :=
  { base := b
    EXPORT_RHS := true
    EQUIDISTANT := true
    CRS_FORMAT := false
    grid := ⟨[]⟩
    numSteps := []
    integrate := 0
    ODE_dim := 0
    name_ODE := ""
    name_diffs_ODE := "" }

/-- Copy constructor `IntegratorExport(const IntegratorExport& arg)`: copies the
`ExportAlgorithm` base part, then sets the three flags to their default values
(`BT_TRUE`, `BT_TRUE`, `BT_FALSE`); grid, step vector, ODE and names are left
default-initialized — the body does not copy them. -/
def IntegratorExport.copyConstruct (arg : IntegratorExport) : IntegratorExport :=
  { base := arg.base
    EXPORT_RHS := true
    EQUIDISTANT := true
    CRS_FORMAT := false
    grid := ⟨[]⟩
    numSteps := []
    integrate := 0
    ODE_dim := 0
    name_ODE := ""
    name_diffs_ODE := "" }

/-- Member `clear()`: does nothing and returns `SUCCESSFUL_RETURN`. -/
def IntegratorExport.clear (s : IntegratorExport) : IntegratorExport := s

/-- Assignment `operator=(const IntegratorExport& arg)`: when source and
destination are distinct objects (`this != &arg`), calls `clear()` and then the
base-class assignment `ExportAlgorithm::operator=(arg)`, which copies only the
base part; when they are the same object, nothing happens.  `sameObject` models
the address comparison `this == &arg`. -/
def IntegratorExport.opAssign (dest arg : IntegratorExport) (sameObject : Bool) :
    IntegratorExport :=
  if sameObject then dest
  else { dest.clear with base := arg.base }

/-- Protected member `copy(const IntegratorExport& arg)`: member-wise copy of
the three flags, the grid, the step vector `numSteps` and the `integrate`
export-function handle. -/
def IntegratorExport.copy (dest arg : IntegratorExport) : IntegratorExport :=
  { dest with
    EXPORT_RHS := arg.EXPORT_RHS
    EQUIDISTANT := arg.EQUIDISTANT
    CRS_FORMAT := arg.CRS_FORMAT
    grid := arg.grid
    numSteps := arg.numSteps
    integrate := arg.integrate }

/-- Member `setGrid(const Grid& _grid)`: adopts the supplied grid and sets
`EQUIDISTANT = BT_FALSE`. -/
def IntegratorExport.setGridDirect (s : IntegratorExport) (g : Grid) :
    IntegratorExport :=
  { s with grid := g, EQUIDISTANT := false }

/-- Member `setGrid(const Grid& _ocpGrid, const uint _numSteps)`: derives the
fine integration grid from the coarse control grid.  `stepsVector(i)` is
`(int) ceil(duration_i/h - 10.0*EPS)` with `h = T/_numSteps`.  If the coarse
grid is equidistant the grid becomes
`Grid(0, T/N, (int) ceil(_numSteps/N - 10.0*EPS) + 1)` and `numSteps` is left
unchanged; otherwise the grid becomes the two-point `Grid(0, h, 2)` and
`numSteps` becomes `stepsVector`.  (The source also stores the interval count
into the inherited member `N` of the opaque base part; the base is not tracked
through this operation.) -/
def IntegratorExport.setGridSteps (s : IntegratorExport) (ocpGrid : Grid)
    (numStepsArg : ℕ) : IntegratorExport :=
  let N : ℕ := ocpGrid.getNumIntervals
  let equidistant : Bool := ocpGrid.isEquidistant
  let T : ℚ := ocpGrid.getLastTime - ocpGrid.getFirstTime
  let h : ℚ := T / (numStepsArg : ℚ)
  let stepsVector : List ℤ :=
    (List.range N).map
      (fun i => Int.ceil ((ocpGrid.getTime (i + 1) - ocpGrid.getTime i) / h - 10 * EPS))
  if equidistant then
    { s with
      grid := Grid.uniform 0 (T / (N : ℚ))
        (Int.ceil ((numStepsArg : ℚ) / (N : ℚ) - 10 * EPS) + 1).toNat }
  else
    { s with grid := Grid.uniform 0 h 2, numSteps := stepsVector }

/-- Member `setModel(_name_ODE, _name_diffs_ODE)`: if `ODE.getFunctionDim() == 0`
it stores the two external names, sets `EXPORT_RHS = BT_FALSE` and returns
`SUCCESSFUL_RETURN`; otherwise it returns `RET_INVALID_OPTION` and changes
nothing. -/
def IntegratorExport.setModel (s : IntegratorExport)
    (nODE nDiffs : String) : IntegratorExport × ReturnValue :=
  if s.ODE_dim = 0 then
    ({ s with name_ODE := nODE, name_diffs_ODE := nDiffs, EXPORT_RHS := false },
     ReturnValue.SUCCESSFUL_RETURN)
  else
    (s, ReturnValue.RET_INVALID_OPTION)

/-- Member `equidistantControlGrid()`: returns `numSteps.isEmpty()`. -/
def IntegratorExport.equidistantControlGrid (s : IntegratorExport) : Bool :=
  s.numSteps.isEmpty

/-- The `while` loop of `getIntegrationInterval`: advance `index` while
`index < getNumIntervals() - 1` and `time > scale*getTime(index+1)`.  The loop
increments `index` at every iteration, so fuel `getNumIntervals` (passed by the
wrapper below) always suffices for grids with at least one interval. -/
def giiLoop (g : Grid) (scale time : ℚ) : ℕ → ℕ → ℕ
  | 0, index => index
  | fuel + 1, index =>
    if index < g.getNumIntervals - 1 ∧ time > scale * g.getTime (index + 1) then
      giiLoop g scale time fuel (index + 1)
    else index

/-- Member `getIntegrationInterval(double time)`: linear scan of the grid
boundaries with `scale = 1/(getLastTime() - getFirstTime())`. -/
def IntegratorExport.getIntegrationInterval (s : IntegratorExport) (time : ℚ) : ℕ :=
  giiLoop s.grid (1 / (s.grid.getLastTime - s.grid.getFirstTime)) time
    s.grid.getNumIntervals 0

/-- Two named `IntegratorExport` objects `A` and `B` living side by side.  All
members of the C++ class are value members (no pointers or references occur in
the translated file), which the record model captures: an operation on one
component cannot touch the other. -/
structure World where
  objA : IntegratorExport
  objB : IntegratorExport

/-- Assignment `B = A` between the two objects of a `World`. -/
def World.assignAtoB (w : World) : World :=
  { w with objB := w.objB.opAssign w.objA false }

/-- Copy construction of `B` from `A` in a `World`. -/
def World.copyConstructB (w : World) : World :=
  { w with objB := IntegratorExport.copyConstruct w.objA }

/-- Mutation of `A` via the one-argument `setGrid` overload. -/
def World.setGridDirectA (w : World) (g : Grid) : World :=
  { w with objA := w.objA.setGridDirect g }

/-- Mutation of `A` via the two-argument `setGrid` overload. -/
def World.setGridStepsA (w : World) (g : Grid) (S : ℕ) : World :=
  { w with objA := w.objA.setGridSteps g S }

/-! ### Generic lemmas about the grid model -/

theorem uniformAux_length (d : ℚ) : ∀ (n : ℕ) (s : ℚ), (uniformAux s d n).length = n := by
  intro n
  induction n with
  | zero => intro s; rfl
  | succ m ih => intro s; simp [uniformAux, ih]

theorem uniformAux_getD (d : ℚ) :
    ∀ (n i : ℕ) (s : ℚ), i < n → (uniformAux s d n).getD i 0 = s + i * d := by
  intro n
  induction n with
  | zero => intro i s h; omega
  | succ m ih =>
    intro i s h
    cases i with
    | zero => simp [uniformAux]
    | succ j =>
      have hj : j < m := by omega
      simp only [uniformAux, List.getD_cons_succ]
      rw [ih j (s + d) hj]
      push_cast
      ring

theorem uniformAux_getLastD (d : ℚ) :
    ∀ (n : ℕ) (s e : ℚ), (uniformAux s d (n + 1)).getLastD e = s + n * d := by
  intro n
  induction n with
  | zero => intro s e; simp [uniformAux]
  | succ m ih =>
    intro s e
    show (s :: uniformAux (s + d) d (m + 1)).getLastD e = _
    rw [List.getLastD_cons, ih (s + d) s]
    push_cast
    ring

theorem uniformAux_headD (s d e : ℚ) (n : ℕ) :
    (uniformAux s d (n + 1)).headD e = s := rfl

theorem diffs_uniformAux (d : ℚ) :
    ∀ (n : ℕ) (s : ℚ), diffs (uniformAux s d n) = List.replicate (n - 1) d := by
  intro n
  induction n with
  | zero => intro s; rfl
  | succ m ih =>
    intro s
    cases m with
    | zero => rfl
    | succ j =>
      show diffs (s :: uniformAux (s + d) d (j + 1)) = _
      rw [show uniformAux (s + d) d (j + 1) = (s + d) :: uniformAux (s + d + d) d j from rfl]
      show (s + d - s) :: diffs ((s + d) :: uniformAux (s + d + d) d j) = _
      rw [show (s + d) :: uniformAux (s + d + d) d j = uniformAux (s + d) d (j + 1) from rfl,
        ih (s + d)]
      simp only [Nat.add_sub_cancel, List.replicate_succ]
      norm_num

theorem Grid.uniform_isEquidistant (f l : ℚ) (n : ℕ) :
    (Grid.uniform f l n).isEquidistant = true := by
  unfold Grid.uniform Grid.isEquidistant
  rw [diffs_uniformAux]
  rcases n with _ | _ | m
  · rfl
  · rfl
  · rw [show m + 2 - 1 = m + 1 from rfl, List.replicate_succ]
    show (List.replicate m _).all (fun x => x == _) = true
    simp only [List.all_eq_true]
    intro x hx
    simp [List.eq_of_mem_replicate hx]

theorem Grid.uniform_times_length (f l : ℚ) (n : ℕ) :
    (Grid.uniform f l n).times.length = n := uniformAux_length _ n f

/-- A grid that is not equidistant has at least three time points (with two or
fewer, the duration list has at most one entry and the equidistance check is
vacuously true). -/
theorem three_le_of_not_equidistant (g : Grid) (h : g.isEquidistant = false) :
    3 ≤ g.times.length := by
  obtain ⟨l⟩ := g
  match l with
  | [] => simp [Grid.isEquidistant, diffs] at h
  | [a] => simp [Grid.isEquidistant, diffs] at h
  | [a, b] => simp [Grid.isEquidistant, diffs] at h
  | a :: b :: c :: rest => simp

theorem getD_map_range (f : ℕ → ℤ) (n i : ℕ) (hi : i < n) (d : ℤ) :
    ((List.range n).map f).getD i d = f i := by
  rw [List.getD_eq_getElem?_getD, List.getElem?_map, List.getElem?_range hi]
  rfl

/-- The last time point of a grid is its time point at index `length - 1`. -/
theorem getLastTime_eq_getTime (g : Grid) :
    g.getLastTime = g.getTime (g.times.length - 1) := by
  unfold Grid.getLastTime Grid.getTime
  rw [List.getLastD_eq_getLast?, List.getLast?_eq_getElem?, List.getD_eq_getElem?_getD]

/-- The first time point of a grid is its time point at index `0`. -/
theorem getFirstTime_eq_getTime (g : Grid) : g.getFirstTime = g.getTime 0 := by
  unfold Grid.getFirstTime Grid.getTime
  rw [List.headD_eq_head?, List.head?_eq_getElem?, List.getD_eq_getElem?_getD]

/-- On a grid with strictly increasing time points, `getTime` is strictly
monotone over the in-range indices. -/
theorem getTime_lt_getTime (g : Grid) (hs : List.Chain' (· < ·) g.times)
    {i j : ℕ} (hij : i < j) (hj : j < g.times.length) : g.getTime i < g.getTime j := by
  have hp := (List.chain'_iff_pairwise).mp hs
  have hi : i < g.times.length := lt_trans hij hj
  have := (List.pairwise_iff_getElem.mp hp) i j hi hj hij
  unfold Grid.getTime
  rw [List.getD_eq_getElem?_getD, List.getD_eq_getElem?_getD,
    List.getElem?_eq_getElem hi, List.getElem?_eq_getElem hj]
  simpa using this

/-! ### Generic lemmas about the interval-lookup loop -/

theorem giiLoop_ge (g : Grid) (scale time : ℚ) :
    ∀ (fuel index : ℕ), index ≤ giiLoop g scale time fuel index := by
  intro fuel
  induction fuel with
  | zero => intro index; simp [giiLoop]
  | succ m ih =>
    intro index
    simp only [giiLoop]
    split
    · exact le_trans (Nat.le_succ _) (ih (index + 1))
    · exact le_refl _

theorem giiLoop_le (g : Grid) (scale time : ℚ) :
    ∀ (fuel index : ℕ), index ≤ g.getNumIntervals - 1 →
      giiLoop g scale time fuel index ≤ g.getNumIntervals - 1 := by
  intro fuel
  induction fuel with
  | zero => intro index h; simpa [giiLoop] using h
  | succ m ih =>
    intro index h
    simp only [giiLoop]
    split
    · next hc => exact ih (index + 1) (by omega)
    · exact h

theorem giiLoop_mono (g : Grid) (scale t1 t2 : ℚ) (h12 : t1 ≤ t2) :
    ∀ (fuel index : ℕ),
      giiLoop g scale t1 fuel index ≤ giiLoop g scale t2 fuel index := by
  intro fuel
  induction fuel with
  | zero => intro index; simp [giiLoop]
  | succ m ih =>
    intro index
    by_cases hc : index < g.getNumIntervals - 1 ∧ t1 > scale * g.getTime (index + 1)
    · have hc2 : index < g.getNumIntervals - 1 ∧ t2 > scale * g.getTime (index + 1) :=
        ⟨hc.1, lt_of_lt_of_le hc.2 h12⟩
      simp only [giiLoop, if_pos hc, if_pos hc2]
      exact ih (index + 1)
    · calc giiLoop g scale t1 (m + 1) index = index := by simp only [giiLoop, if_neg hc]
        _ ≤ giiLoop g scale t2 (m + 1) index := giiLoop_ge g scale t2 (m + 1) index

/-- Characterization of the scan: if every boundary strictly below `k` is
strictly exceeded and the loop condition fails at `k`, the loop started below
`k` with enough fuel returns exactly `k`. -/
theorem giiLoop_stops (g : Grid) (scale time : ℚ) (k : ℕ) :
    ∀ (fuel index : ℕ), index ≤ k → k - index ≤ fuel →
      (∀ j, index ≤ j → j < k →
        j < g.getNumIntervals - 1 ∧ time > scale * g.getTime (j + 1)) →
      ¬(k < g.getNumIntervals - 1 ∧ time > scale * g.getTime (k + 1)) →
      giiLoop g scale time fuel index = k := by
  intro fuel
  induction fuel with
  | zero =>
    intro index h1 h2 _ _
    have : index = k := by omega
    simpa [giiLoop]
  | succ m ih =>
    intro index h1 h2 hall hstop
    rcases Nat.eq_or_lt_of_le h1 with heq | hlt
    · subst heq
      simp only [giiLoop, if_neg hstop]
    · have hadv := hall index (le_refl _) hlt
      simp only [giiLoop, if_pos hadv]
      exact ih (index + 1) (by omega) (by omega)
        (fun j hj1 hj2 => hall j (by omega) hj2) hstop

/-! ### Concrete objects used by witnesses and counterexamples -/

/-- A default-constructed configuration. -/
def mk0 : IntegratorExport := IntegratorExport.mkDefault 0

/-- A non-equidistant three-point grid (intervals of durations 1 and 2). -/
def gridNE : Grid := ⟨[0, 1, 3]⟩

/-- An equidistant three-point grid (two intervals of duration 1). -/
def gridEQ : Grid := ⟨[0, 1, 2]⟩

/-- A configuration whose `EQUIDISTANT` flag has been set to false by the
one-argument `setGrid` overload. -/
def c1src : IntegratorExport := mk0.setGridDirect gridEQ

/-! ### Claims -/

/-- C1 (counterexample): copy construction does not reproduce the source's
flags: for a source whose `EQUIDISTANT` flag is false (here obtained by a
`setGrid` call), the copy-constructed destination has `EQUIDISTANT = true`,
because the copy constructor re-initializes the three flags to their default
values instead of copying them. -/
theorem C1_counterexample :
    ¬((IntegratorExport.copyConstruct c1src).EQUIDISTANT = c1src.EQUIDISTANT) := by
  simp [IntegratorExport.copyConstruct, c1src, IntegratorExport.setGridDirect, mk0,
    IntegratorExport.mkDefault]

/-- C1 (amended): the protected `copy` member produces a destination whose
`EXPORT_RHS`, `EQUIDISTANT` and `CRS_FORMAT` flags, grid, step-count sequence
and `integrate` handle all equal the source's; the copy constructor instead
re-initializes the three flags to their defaults (true, true, false), copies
only the base part, and leaves grid, step-count sequence and `integrate`
handle default-initialized (empty grid, empty sequence, default handle); copy
assignment between distinct objects copies only the base part and leaves the
other members of the destination unchanged; and assigning an object to itself
leaves it unchanged. -/
theorem C1_copy_semantics (a b : IntegratorExport) :
    ((b.copy a).EXPORT_RHS = a.EXPORT_RHS ∧ (b.copy a).EQUIDISTANT = a.EQUIDISTANT ∧
      (b.copy a).CRS_FORMAT = a.CRS_FORMAT ∧ (b.copy a).grid = a.grid ∧
      (b.copy a).numSteps = a.numSteps ∧ (b.copy a).integrate = a.integrate) ∧
    ((IntegratorExport.copyConstruct a).EXPORT_RHS = true ∧
      (IntegratorExport.copyConstruct a).EQUIDISTANT = true ∧
      (IntegratorExport.copyConstruct a).CRS_FORMAT = false ∧
      (IntegratorExport.copyConstruct a).base = a.base ∧
      (IntegratorExport.copyConstruct a).grid = ⟨[]⟩ ∧
      (IntegratorExport.copyConstruct a).numSteps = [] ∧
      (IntegratorExport.copyConstruct a).integrate = 0) ∧
    (b.opAssign a false = { b with base := a.base }) ∧
    (b.opAssign b true = b) := by
  refine ⟨⟨rfl, rfl, rfl, rfl, rfl, rfl⟩, ⟨rfl, rfl, rfl, rfl, rfl, rfl, rfl⟩, ?_, ?_⟩
  · simp [IntegratorExport.opAssign, IntegratorExport.clear]
  · simp [IntegratorExport.opAssign]

/-- C4: `setModel` succeeds exactly when the symbolic ODE dimension is zero; on
success it stores the two external names and clears `EXPORT_RHS`; on failure it
returns `RET_INVALID_OPTION` and leaves the state unchanged; and a second call
on a successfully (externally) bound configuration succeeds again, since only
the symbolic-dimension check gates it. -/
theorem C4_setModel (s : IntegratorExport) (n1 n2 : String) :
    ((s.setModel n1 n2).2 = ReturnValue.SUCCESSFUL_RETURN ↔ s.ODE_dim = 0) ∧
    (s.ODE_dim = 0 →
      (s.setModel n1 n2).1 =
        { s with name_ODE := n1, name_diffs_ODE := n2, EXPORT_RHS := false }) ∧
    (s.ODE_dim ≠ 0 →
      (s.setModel n1 n2).2 = ReturnValue.RET_INVALID_OPTION ∧
        (s.setModel n1 n2).1 = s) ∧
    (s.ODE_dim = 0 → ∀ n3 n4,
      ((s.setModel n1 n2).1.setModel n3 n4).2 = ReturnValue.SUCCESSFUL_RETURN) := by
  by_cases h : s.ODE_dim = 0 <;> simp [IntegratorExport.setModel, h]

/-- C4 (witness): on a fresh configuration a first and a second external
binding both succeed. -/
theorem C4_witness :
    ((mk0.setModel "f" "df").1.setModel "g" "dg").2 = ReturnValue.SUCCESSFUL_RETURN :=
  (C4_setModel mk0 "f" "df").2.2.2 rfl "g" "dg"

/-- C8: after copying configuration `A` into `B` (by copy assignment or copy
construction), mutating `A`'s grid through either `setGrid` overload leaves `B`
entirely unchanged.  The record model captures that every member of the C++
class is a value member, so no state is shared between the two objects. -/
theorem C8_copy_independence (w : World) (g : Grid) (S : ℕ) :
    ((w.assignAtoB.setGridDirectA g).objB = w.assignAtoB.objB) ∧
    ((w.assignAtoB.setGridStepsA g S).objB = w.assignAtoB.objB) ∧
    ((w.copyConstructB.setGridDirectA g).objB = w.copyConstructB.objB) ∧
    ((w.copyConstructB.setGridStepsA g S).objB = w.copyConstructB.objB) :=
  ⟨rfl, rfl, rfl, rfl⟩

/-- C10: every `setModel` call, successful or failing, leaves the grid, the
step-count sequence, the `EQUIDISTANT` and `CRS_FORMAT` flags (and the base
part, the `integrate` handle and the symbolic dimension) unchanged; a
successful call modifies only `name_ODE`, `name_diffs_ODE` and `EXPORT_RHS`. -/
theorem C10_setModel_frame (s : IntegratorExport) (n1 n2 : String) :
    ((s.setModel n1 n2).1.grid = s.grid) ∧
    ((s.setModel n1 n2).1.numSteps = s.numSteps) ∧
    ((s.setModel n1 n2).1.EQUIDISTANT = s.EQUIDISTANT) ∧
    ((s.setModel n1 n2).1.CRS_FORMAT = s.CRS_FORMAT) ∧
    ((s.setModel n1 n2).1.base = s.base) ∧
    ((s.setModel n1 n2).1.integrate = s.integrate) ∧
    ((s.setModel n1 n2).1.ODE_dim = s.ODE_dim) ∧
    (s.ODE_dim = 0 →
      (s.setModel n1 n2).1 =
        { s with name_ODE := n1, name_diffs_ODE := n2, EXPORT_RHS := false }) := by
  by_cases h : s.ODE_dim = 0 <;> simp [IntegratorExport.setModel, h]

/-- C10 (witness): a successful `setModel` call on a fresh configuration
changes exactly the two names and the `EXPORT_RHS` flag. -/
theorem C10_witness :
    (mk0.setModel "f" "df").1 =
      { mk0 with name_ODE := "f", name_diffs_ODE := "df", EXPORT_RHS := false } :=
  (C10_setModel_frame mk0 "f" "df").2.2.2.2.2.2.2 rfl

theorem gridNE_not_equidistant : gridNE.isEquidistant = false := by
  simp [gridNE, Grid.isEquidistant, diffs]
  norm_num

theorem gridEQ_equidistant : gridEQ.isEquidistant = true := by
  simp [gridEQ, Grid.isEquidistant, diffs]
  norm_num

/-- C3 (counterexample): a `setGrid` call with an equidistant coarse grid does
not clear the step-count sequence.  Starting from a configuration whose
sequence is non-empty (after a non-equidistant `setGrid`), a subsequent
equidistant `setGrid` leaves it non-empty, so `equidistantControlGrid()`
returns false where the claim says true. -/
theorem C3_counterexample :
    gridEQ.isEquidistant = true ∧
    ((mk0.setGridSteps gridNE 2).setGridSteps gridEQ 2).equidistantControlGrid = false := by
  refine ⟨gridEQ_equidistant, ?_⟩
  have hN : gridNE.getNumIntervals = 2 := rfl
  simp [IntegratorExport.setGridSteps, gridNE_not_equidistant, gridEQ_equidistant,
    IntegratorExport.equidistantControlGrid, List.isEmpty_iff, List.range_eq_nil, hN]

/-- C3 (amended): `equidistantControlGrid()` returns true exactly when the
step-count sequence is empty; it is true immediately after default
construction; a `setGrid(coarseGrid, totalSubSteps)` call whose coarse grid is
equidistant leaves the sequence unchanged (it does not clear it, so the query
afterwards returns whatever emptiness held before); and the query returns false
immediately after a `setGrid` call whose coarse grid is non-equidistant. -/
theorem C3_equidistantControlGrid (b : ℕ) (s : IntegratorExport) (g : Grid) (S : ℕ) :
    (s.equidistantControlGrid = s.numSteps.isEmpty) ∧
    ((IntegratorExport.mkDefault b).equidistantControlGrid = true) ∧
    (g.isEquidistant = true → (s.setGridSteps g S).numSteps = s.numSteps) ∧
    (g.isEquidistant = false → (s.setGridSteps g S).equidistantControlGrid = false) := by
  refine ⟨rfl, rfl, ?_, ?_⟩
  · intro h
    simp [IntegratorExport.setGridSteps, h]
  · intro h
    have h3 := three_le_of_not_equidistant g h
    have hN : g.getNumIntervals ≠ 0 := by unfold Grid.getNumIntervals; omega
    simp [IntegratorExport.setGridSteps, h, IntegratorExport.equidistantControlGrid,
      List.isEmpty_iff, List.range_eq_nil, hN]

/-- C3 (witness): after a non-equidistant `setGrid` call the query returns
false. -/
theorem C3_witness :
    ((mk0.setGridSteps gridNE 2).setGridSteps gridNE 2).equidistantControlGrid = false :=
  (C3_equidistantControlGrid 0 (mk0.setGridSteps gridNE 2) gridNE 2).2.2.2
    gridNE_not_equidistant

/-- C6: for a non-equidistant coarse grid and `S > 0`, `setGrid(coarseGrid, S)`
sets the fine grid to the two-point grid `[0, h]` with `h = T/S`, and the
step-count sequence has one entry per coarse interval, entry `i` equal to
`ceil(duration_i/h - 10*EPS)`. -/
theorem C6_nonequidistant (s : IntegratorExport) (g : Grid) (S : ℕ)
    (hne : g.isEquidistant = false) (_hS : 0 < S) :
    (s.setGridSteps g S).grid.times =
      [0, (g.getLastTime - g.getFirstTime) / (S : ℚ)] ∧
    (s.setGridSteps g S).numSteps.length = g.getNumIntervals ∧
    ∀ i, i < g.getNumIntervals →
      (s.setGridSteps g S).numSteps.getD i 0 =
        Int.ceil ((g.getTime (i + 1) - g.getTime i) /
          ((g.getLastTime - g.getFirstTime) / (S : ℚ)) - 10 * EPS) := by
  refine ⟨?_, ?_, ?_⟩
  · simp [IntegratorExport.setGridSteps, hne, Grid.uniform, uniformAux]
    norm_num
  · simp [IntegratorExport.setGridSteps, hne]
  · intro i hi
    have := getD_map_range
      (fun j => Int.ceil ((g.getTime (j + 1) - g.getTime j) /
        ((g.getLastTime - g.getFirstTime) / (S : ℚ)) - 10 * EPS))
      g.getNumIntervals i hi 0
    simpa [IntegratorExport.setGridSteps, hne] using this

/-- C6 (witness): the non-equidistant grid `{0, 1, 3}` with `S = 2` yields the
one-step fine grid `[0, 3/2]` and the first step count `ceil(1/(3/2) - ε)`. -/
theorem C6_witness :
    (mk0.setGridSteps gridNE 2).grid.times =
      [0, (gridNE.getLastTime - gridNE.getFirstTime) / ((2 : ℕ) : ℚ)] ∧
    (mk0.setGridSteps gridNE 2).numSteps.getD 0 0 =
      Int.ceil ((gridNE.getTime 1 - gridNE.getTime 0) /
        ((gridNE.getLastTime - gridNE.getFirstTime) / ((2 : ℕ) : ℚ)) - 10 * EPS) := by
  obtain ⟨h1, h2, h3⟩ :=
    C6_nonequidistant mk0 gridNE 2 gridNE_not_equidistant (by norm_num)
  exact ⟨h1, h3 0 (by simp [gridNE, Grid.getNumIntervals])⟩

/-- The grid used against claim C7: its first interval has positive duration
`2^-60`, smaller than the tolerance `10*EPS` times the nominal step. -/
def c7g : Grid := ⟨[0, 1 / 2 ^ 60, 1]⟩

theorem c7g_not_equidistant : c7g.isEquidistant = false := by
  simp [c7g, Grid.isEquidistant, diffs]
  norm_num

/-- C7 (counterexample): on the non-equidistant grid `{0, 2^-60, 1}` with
`S = 1` (so `h = 1`), the first coarse interval has positive duration but its
step-count entry is `ceil(2^-60 - 10*EPS) = 0`, not at least 1: the tolerance
pushes the tiny ratio below zero. -/
theorem C7_counterexample :
    c7g.isEquidistant = false ∧
    (0 : ℚ) < c7g.getTime 1 - c7g.getTime 0 ∧
    ¬(1 ≤ (mk0.setGridSteps c7g 1).numSteps.getD 0 0) := by
  have e1 : c7g.getTime 0 = 0 := rfl
  have e2 : c7g.getTime 1 = 1 / 2 ^ 60 := rfl
  have e3 : c7g.getLastTime = 1 := rfl
  have e4 : c7g.getFirstTime = 0 := rfl
  refine ⟨c7g_not_equidistant, by rw [e1, e2]; norm_num, ?_⟩
  have h0 : (mk0.setGridSteps c7g 1).numSteps.getD 0 0 =
      Int.ceil ((c7g.getTime 1 - c7g.getTime 0) /
        ((c7g.getLastTime - c7g.getFirstTime) / ((1 : ℕ) : ℚ)) - 10 * EPS) := by
    have := getD_map_range
      (fun j => Int.ceil ((c7g.getTime (j + 1) - c7g.getTime j) /
        ((c7g.getLastTime - c7g.getFirstTime) / ((1 : ℕ) : ℚ)) - 10 * EPS))
      c7g.getNumIntervals 0 (by simp [c7g, Grid.getNumIntervals]) 0
    simpa [IntegratorExport.setGridSteps, c7g_not_equidistant] using this
  rw [h0, e1, e2, e3, e4]
  have hz : Int.ceil ((1 / 2 ^ 60 - 0 : ℚ) / ((1 - 0) / ((1 : ℕ) : ℚ)) - 10 * EPS) = 0 := by
    rw [Int.ceil_eq_zero_iff, Set.mem_Ioc]
    constructor <;> norm_num [EPS]
  rw [hz]
  norm_num

/-- C7 (amended): for a non-equidistant coarse grid, the step-count entry of
coarse interval `i` is at least 1 whenever the ratio `duration_i / h` exceeds
the tolerance `10*EPS` (for durations at or below `10*EPS*h` the tolerance can
push the entry to zero, as the counterexample shows). -/
theorem C7_steps_positive (s : IntegratorExport) (g : Grid) (S : ℕ) (i : ℕ)
    (hne : g.isEquidistant = false) (hi : i < g.getNumIntervals)
    (htol : 10 * EPS < (g.getTime (i + 1) - g.getTime i) /
      ((g.getLastTime - g.getFirstTime) / (S : ℚ))) :
    1 ≤ (s.setGridSteps g S).numSteps.getD i 0 := by
  have hD : (s.setGridSteps g S).numSteps.getD i 0 =
      Int.ceil ((g.getTime (i + 1) - g.getTime i) /
        ((g.getLastTime - g.getFirstTime) / (S : ℚ)) - 10 * EPS) := by
    have := getD_map_range
      (fun j => Int.ceil ((g.getTime (j + 1) - g.getTime j) /
        ((g.getLastTime - g.getFirstTime) / (S : ℚ)) - 10 * EPS))
      g.getNumIntervals i hi 0
    simpa [IntegratorExport.setGridSteps, hne] using this
  rw [hD]
  have hpos : (0 : ℚ) < (g.getTime (i + 1) - g.getTime i) /
      ((g.getLastTime - g.getFirstTime) / (S : ℚ)) - 10 * EPS := sub_pos.mpr htol
  have := Int.lt_ceil.mpr (by exact_mod_cast hpos :
    ((0 : ℤ) : ℚ) < (g.getTime (i + 1) - g.getTime i) /
      ((g.getLastTime - g.getFirstTime) / (S : ℚ)) - 10 * EPS)
  omega

/-- C7 (witness): on the grid `{0, 1, 3}` with `S = 2`, the first interval's
ratio `1/(3/2) = 2/3` exceeds the tolerance and its entry is at least 1. -/
theorem C7_witness : 1 ≤ (mk0.setGridSteps gridNE 2).numSteps.getD 0 0 := by
  have e1 : gridNE.getTime 0 = 0 := rfl
  have e2 : gridNE.getTime 1 = 1 := rfl
  have e3 : gridNE.getLastTime = 3 := rfl
  have e4 : gridNE.getFirstTime = 0 := rfl
  exact C7_steps_positive mk0 gridNE 2 0 gridNE_not_equidistant
    (by simp [gridNE, Grid.getNumIntervals])
    (by rw [e1, e2, e3, e4]; norm_num [EPS])

/-- A configuration whose grid is the equidistant grid `{0, 1, 2}`. -/
def c2s : IntegratorExport := mk0.setGridDirect gridEQ

theorem c2s_chain : List.Chain' (· < ·) c2s.grid.times := by
  show List.Chain' (· < ·) [(0 : ℚ), 1, 2]
  norm_num [List.chain'_cons, List.chain'_singleton]

/-- C2 (counterexample): on the grid `{0, 1, 2}` (2 intervals), the time
exactly equal to the scaled interior boundary `scale*t_1 = 1/2` yields interval
index 0, not 1: the strict `>` comparison fails at equality, so the scan stops
before advancing past the boundary. -/
theorem C2_counterexample :
    c2s.grid.getNumIntervals = 2 ∧
    c2s.getIntegrationInterval
      ((1 / (c2s.grid.getLastTime - c2s.grid.getFirstTime)) * c2s.grid.getTime 1) ≠ 1 := by
  refine ⟨rfl, ?_⟩
  have h0 : c2s.getIntegrationInterval
      ((1 / (c2s.grid.getLastTime - c2s.grid.getFirstTime)) * c2s.grid.getTime 1) = 0 := by
    apply giiLoop_stops
    · exact le_refl 0
    · exact Nat.zero_le _
    · intro j h1 h2
      omega
    · rintro ⟨-, h⟩
      exact lt_irrefl _ h
  rw [h0]
  exact Nat.zero_ne_one

/-- C2 (amended): for a strictly increasing grid with `n ≥ 2` intervals and an
interior boundary index `k` in `[1, n-1]`, `getIntegrationInterval` applied to
the time exactly equal to `scale*boundary(k)` returns `k - 1`, not `k`: under
the strict-`>` scan a time equal to a boundary belongs to the interval ending
at that boundary (boundary membership is inclusive-upper).  For a time at or
beyond the final scaled boundary the result is `n - 1`. -/
theorem C2_boundary (s : IntegratorExport) (k : ℕ)
    (hs : List.Chain' (· < ·) s.grid.times)
    (hn : 2 ≤ s.grid.getNumIntervals)
    (hk1 : 1 ≤ k) (hk2 : k ≤ s.grid.getNumIntervals - 1) :
    s.getIntegrationInterval
      ((1 / (s.grid.getLastTime - s.grid.getFirstTime)) * s.grid.getTime k) = k - 1 ∧
    ∀ time, (1 / (s.grid.getLastTime - s.grid.getFirstTime)) *
        s.grid.getTime s.grid.getNumIntervals ≤ time →
      s.getIntegrationInterval time = s.grid.getNumIntervals - 1 := by
  have hlen : s.grid.times.length = s.grid.getNumIntervals + 1 := by
    unfold Grid.getNumIntervals at hn ⊢
    omega
  have hlast : s.grid.getLastTime = s.grid.getTime s.grid.getNumIntervals := by
    rw [getLastTime_eq_getTime, hlen]
    simp
  have hfirst : s.grid.getFirstTime = s.grid.getTime 0 := getFirstTime_eq_getTime s.grid
  have h0n : s.grid.getTime 0 < s.grid.getTime s.grid.getNumIntervals :=
    getTime_lt_getTime s.grid hs (by omega) (by omega)
  have hscale : 0 < 1 / (s.grid.getLastTime - s.grid.getFirstTime) := by
    rw [hlast, hfirst]
    exact one_div_pos.mpr (sub_pos.mpr h0n)
  constructor
  · apply giiLoop_stops
    · exact Nat.zero_le _
    · omega
    · intro j _ hj
      refine ⟨by omega, ?_⟩
      exact mul_lt_mul_of_pos_left
        (getTime_lt_getTime s.grid hs (by omega) (by omega)) hscale
    · rintro ⟨-, hgt⟩
      have hk : k - 1 + 1 = k := by omega
      rw [hk] at hgt
      exact lt_irrefl _ hgt
  · intro time htime
    apply giiLoop_stops
    · exact Nat.zero_le _
    · omega
    · intro j _ hj
      refine ⟨by omega, ?_⟩
      calc (1 / (s.grid.getLastTime - s.grid.getFirstTime)) * s.grid.getTime (j + 1)
          < (1 / (s.grid.getLastTime - s.grid.getFirstTime)) *
              s.grid.getTime s.grid.getNumIntervals :=
            mul_lt_mul_of_pos_left
              (getTime_lt_getTime s.grid hs (by omega) (by omega)) hscale
        _ ≤ time := htime
    · rintro ⟨hlt, -⟩
      omega

/-- C2 (witness): on the configuration with grid `{0, 1, 2}`, the time at the
scaled interior boundary `k = 1` yields interval index `0 = k - 1`. -/
theorem C2_witness :
    c2s.getIntegrationInterval
      ((1 / (c2s.grid.getLastTime - c2s.grid.getFirstTime)) * c2s.grid.getTime 1) = 0 :=
  (C2_boundary c2s 1 c2s_chain (by norm_num [c2s, mk0, IntegratorExport.mkDefault,
    IntegratorExport.setGridDirect, gridEQ, Grid.getNumIntervals]) (le_refl 1)
    (by norm_num [c2s, mk0, IntegratorExport.mkDefault,
      IntegratorExport.setGridDirect, gridEQ, Grid.getNumIntervals])).1

/-- C9: for a grid with at least one interval, `getIntegrationInterval` always
returns an index at most `n - 1` (and, being a natural number, at least 0), and
the returned index is monotonically non-decreasing in the time argument. -/
theorem C9_locate_range_mono (s : IntegratorExport)
    (_hn : 1 ≤ s.grid.getNumIntervals) :
    (∀ time, s.getIntegrationInterval time ≤ s.grid.getNumIntervals - 1) ∧
    (∀ t1 t2, t1 ≤ t2 →
      s.getIntegrationInterval t1 ≤ s.getIntegrationInterval t2) := by
  constructor
  · intro time
    exact giiLoop_le s.grid _ time s.grid.getNumIntervals 0 (Nat.zero_le _)
  · intro t1 t2 h
    exact giiLoop_mono s.grid _ t1 t2 h s.grid.getNumIntervals 0

/-- C9 (witness): on the configuration with grid `{0, 1, 2}`, the lookup at
time 0 is in range and at most the lookup at time 1. -/
theorem C9_witness :
    c2s.getIntegrationInterval 0 ≤ c2s.grid.getNumIntervals - 1 ∧
    c2s.getIntegrationInterval 0 ≤ c2s.getIntegrationInterval 1 := by
  obtain ⟨h1, h2⟩ := C9_locate_range_mono c2s
    (by norm_num [c2s, mk0, IntegratorExport.mkDefault,
      IntegratorExport.setGridDirect, gridEQ, Grid.getNumIntervals])
  exact ⟨h1 0, h2 0 1 (by norm_num)⟩

/-- For an equidistant coarse grid whose ratio `S/N` exceeds the tolerance
`10*EPS`, `setGrid(coarseGrid, S)` sets the fine grid to exactly
`ceil(S/N - 10*EPS) + 1` points spanning `[0, T/N]`.  The tolerance hypothesis
makes the ceiling positive, so the constructed grid has at least two points. -/
theorem setGridSteps_equidistant_span (s : IntegratorExport) (g : Grid) (S : ℕ)
    (heq : g.isEquidistant = true)
    (htol : 10 * EPS < (S : ℚ) / (g.getNumIntervals : ℚ)) :
    ((s.setGridSteps g S).grid.times.length : ℤ) =
      Int.ceil ((S : ℚ) / (g.getNumIntervals : ℚ) - 10 * EPS) + 1 ∧
    (s.setGridSteps g S).grid.getFirstTime = 0 ∧
    (s.setGridSteps g S).grid.getLastTime =
      (g.getLastTime - g.getFirstTime) / (g.getNumIntervals : ℚ) := by
  have hgrid : (s.setGridSteps g S).grid =
      Grid.uniform 0 ((g.getLastTime - g.getFirstTime) / (g.getNumIntervals : ℚ))
        (Int.ceil ((S : ℚ) / (g.getNumIntervals : ℚ) - 10 * EPS) + 1).toNat := by
    simp [IntegratorExport.setGridSteps, heq]
  have hc : 0 < Int.ceil ((S : ℚ) / (g.getNumIntervals : ℚ) - 10 * EPS) := by
    rw [Int.lt_ceil]
    push_cast
    linarith
  obtain ⟨m, hm⟩ :
      ∃ m, (Int.ceil ((S : ℚ) / (g.getNumIntervals : ℚ) - 10 * EPS) + 1).toNat = m + 2 :=
    ⟨(Int.ceil ((S : ℚ) / (g.getNumIntervals : ℚ) - 10 * EPS) - 1).toNat, by omega⟩
  refine ⟨?_, ?_, ?_⟩
  · rw [hgrid, Grid.uniform_times_length]
    omega
  · rw [hgrid, hm]
    show (uniformAux 0 _ (m + 1 + 1)).headD 0 = 0
    rw [uniformAux_headD]
  · rw [hgrid, hm]
    show (uniformAux 0
      (((g.getLastTime - g.getFirstTime) / (g.getNumIntervals : ℚ) - 0) /
        (((m + 2 : ℕ) : ℚ) - 1)) (m + 1 + 1)).getLastD 0 = _
    rw [uniformAux_getLastD]
    have hm1 : ((m : ℚ) + 1) ≠ 0 := by positivity
    push_cast
    have h21 : ((m : ℚ) + 2 - 1) = (m : ℚ) + 1 := by ring
    rw [h21, sub_zero, zero_add, mul_comm, div_mul_cancel₀ _ hm1]

/-- C5: for every equidistant coarse grid with `N >= 1` intervals (any interval
count the program's 32-bit unsigned `getNumIntervals()` can report) and total
duration `T`, and every `totalSubSteps S > 0`, `setGrid(coarseGrid, S)` sets
the fine grid to span `[0, L]` with `L = T/N` and exactly
`ceil(S/N - 10*EPS) + 1` points.  On such inputs `S/N >= 1/N > 2^-32`, far
above the tolerance `10*EPS = 10*2^-52`, so the ceiling is at least 1 and the
grid never degenerates. -/
theorem C5_equidistant_grid (s : IntegratorExport) (g : Grid) (S : ℕ)
    (heq : g.isEquidistant = true) (hS : 0 < S)
    (hN1 : 1 ≤ g.getNumIntervals) (hN : g.getNumIntervals < 2 ^ 32) :
    ((s.setGridSteps g S).grid.times.length : ℤ) =
      Int.ceil ((S : ℚ) / (g.getNumIntervals : ℚ) - 10 * EPS) + 1 ∧
    (s.setGridSteps g S).grid.getFirstTime = 0 ∧
    (s.setGridSteps g S).grid.getLastTime =
      (g.getLastTime - g.getFirstTime) / (g.getNumIntervals : ℚ) := by
  have hNq : (0 : ℚ) < (g.getNumIntervals : ℚ) := by
    exact_mod_cast Nat.lt_of_lt_of_le Nat.zero_lt_one hN1
  have hSq : (1 : ℚ) ≤ (S : ℚ) := by exact_mod_cast hS
  have hNlt : (g.getNumIntervals : ℚ) < 2 ^ 32 := by exact_mod_cast hN
  have h1 : 10 * EPS < 1 / (2 ^ 32 : ℚ) := by norm_num [EPS]
  have h2 : 1 / (2 ^ 32 : ℚ) < 1 / (g.getNumIntervals : ℚ) :=
    one_div_lt_one_div_of_lt hNq hNlt
  have h3 : 1 / (g.getNumIntervals : ℚ) ≤ (S : ℚ) / (g.getNumIntervals : ℚ) :=
    (div_le_div_iff_of_pos_right hNq).mpr hSq
  exact setGridSteps_equidistant_span s g S heq (by linarith)

/-- The spec's example grid for C5: four equal intervals over `[0, 4]`. -/
def c5wg : Grid := ⟨[0, 1, 2, 3, 4]⟩

theorem c5wg_equidistant : c5wg.isEquidistant = true := by
  simp [c5wg, Grid.isEquidistant, diffs]
  norm_num

/-- C5 (witness): the spec's own example: an equidistant grid with `N = 4`
intervals over `[0, 4]` and `S = 8` gives a fine grid of
`ceil(2 - 10*EPS) + 1 = 3` points spanning `[0, 1]`. -/
theorem C5_witness :
    (((mk0.setGridSteps c5wg 8).grid.times.length : ℤ) =
      Int.ceil (((8 : ℕ) : ℚ) / (c5wg.getNumIntervals : ℚ) - 10 * EPS) + 1) ∧
    (mk0.setGridSteps c5wg 8).grid.getFirstTime = 0 ∧
    (mk0.setGridSteps c5wg 8).grid.getLastTime =
      (c5wg.getLastTime - c5wg.getFirstTime) / (c5wg.getNumIntervals : ℚ) :=
  C5_equidistant_grid mk0 c5wg 8 c5wg_equidistant (by norm_num)
    (by rw [show c5wg.getNumIntervals = 4 from rfl]; norm_num)
    (by rw [show c5wg.getNumIntervals = 4 from rfl]; norm_num)

end Acado
